import Mathlib

/-!
Verification of the binding-resolution and state-reconciliation engine of the
`climate_control_calendar` integration, as a shallow embedding of the Python
sources in `custom_components/climate_control_calendar/`
(`event_matcher.py`, `binding_manager.py`, `engine.py`, `applier.py`,
`events.py`).

Modelling conventions:
* Python dicts used as records become Lean structures; a field read with
  `d.get(key, default)` whose absence matters is modelled as an `Option`
  field read through `Option.getD`; fields the code always supplies are plain
  fields.  Absent and empty event summaries are identified, because the code
  reads them as `event.get("summary", "")`.
* Python dicts used as mutable maps (`current_state`, `entities_by_binding`,
  `_previous_applied_state`) become association lists in insertion order,
  with `dictInsert` / `dictInsertAppend` reproducing dict assignment
  (overwrite in place, append new keys at the end) and `dictGet`
  reproducing `dict.get`.
* `sorted(xs, key=k, reverse=True)` is modelled by `sortDescBy`, a stable
  insertion sort in descending key order: elements with equal keys keep
  their original relative order, exactly as CPython's stable sort does with
  `reverse=True`.
* The standard-library regex engine (`re`) is external to the repository; it
  is modelled over the pure regular-expression core (literal characters,
  alternation `|`, concatenation, `*`, `+`, `?`, and parentheses) by a
  pattern compiler `compileRE` into Mathlib's `RegularExpression`, with
  `re.match` (anchored at position 0) modelled as "some prefix of the string
  is in the language".  Patterns outside this core are treated as
  uncompilable.  A raised `re.error` is modelled by `compileRE` returning
  `none`; the Lean functions are total, which models "never throws".
* Asynchronous service calls of the applier are modelled by a behaviour
  oracle `String → Nat → Option String` giving, per device and per attempt
  index, the error message raised by that attempt (or `none` for success).
  The fixed retry sleep has no observable effect and is dropped.
-/

/-- Opaque climate payload: an ordered key→value bag (the engine never
interprets the values, it only passes them through and compares them). -/
abbrev Payload := List (String × String)

/-- The `calendars` field of a binding: either the wildcard / a single
calendar id given as a string, or an explicit list of calendar ids
(`binding_manager.py`, `event_matcher.matches_calendar`). -/
inductive CalendarFilter where
  | strF (s : String)
  | listF (ids : List String)
deriving Repr, DecidableEq

/-- A binding's `match` sub-dict: `{"type": ..., "value": ...}`.  A missing
`type`/`value` is identified with the empty string, as both are falsy and
take the same branch in `EventMatcher.matches`. -/
structure MatchConfig where
  type : String
  value : String
deriving Repr, DecidableEq

/-- A binding ("rule"): dict with keys `id`, `calendars`, `match`,
`slot_id`, `priority` (`binding_manager.py`).  `calendars` and `priority`
are read with `.get(...)` defaults, `slot_id` with `.get` (default `None`),
so they are `Option` fields. -/
structure Binding where
  id : String
  calendars : Option CalendarFilter
  matchConfig : MatchConfig
  slot_id : Option String
  priority : Option Int
deriving Repr, DecidableEq

/-- A slot configuration as used by the engine: keys `id`, `label`,
`excluded_entities`, `entity_overrides`, `default_climate_payload`,
`climate_payload` (`engine.py`). -/
structure Slot where
  id : String
  label : String
  excluded_entities : List String
  entity_overrides : List (String × Payload)
  default_climate_payload : Option Payload
  climate_payload : Option Payload
deriving Repr, DecidableEq

/-- A calendar event as consumed by the matcher and the engine: `summary`
read via `event.get("summary", "")` and `calendar_id` via
`event.get("calendar_id")`. -/
structure Event where
  summary : String
  calendar_id : String
deriving Repr, DecidableEq

/-- `binding_metadata` dict carried in the engine's resolved tuples, with
keys `binding_id`, `match_type`, `match_value` (`engine.py`). -/
structure BindingMetadata where
  binding_id : String
  match_type : String
  match_value : String
deriving Repr, DecidableEq

/-- One element of the engine's `resolved_bindings` list: the
`(slot, target_entities, priority, binding_metadata, event_summary)` tuple
(`engine.py`, `resolve_slots_for_active_events`). -/
structure ResolvedTuple where
  slot : Slot
  target_entities : Option (List String)
  priority : Int
  metadata : BindingMetadata
  event_summary : String
deriving Repr, DecidableEq

/-! ### Python dict and stable-sort primitives -/

/-- Python dict assignment `m[k] = v` on an insertion-ordered map: overwrite
in place if the key exists, otherwise append at the end. -/
def dictInsert {α : Type} [DecidableEq α] {β : Type}
    (m : List (α × β)) (k : α) (v : β) : List (α × β) :=
  match m with
  | [] => [(k, v)]
  | (k', v') :: rest =>
      if k' = k then (k, v) :: rest else (k', v') :: dictInsert rest k v

/-- Appending an element to the list stored under a key, creating the key at
the end if absent (the `entities_by_binding` / `entities_by_payload`
accumulation pattern in `engine.py`). -/
def dictInsertAppend {α : Type} [DecidableEq α] {β : Type}
    (m : List (α × List β)) (k : α) (v : β) : List (α × List β) :=
  match m with
  | [] => [(k, [v])]
  | (k', vs) :: rest =>
      if k' = k then (k, vs ++ [v]) :: rest
      else (k', vs) :: dictInsertAppend rest k v

/-- Python `dict.get(k)` on an insertion-ordered map modelled as an
association list: the value at the (unique) occurrence of the key. -/
def dictGet {α : Type} [DecidableEq α] {β : Type}
    (m : List (α × β)) (k : α) : Option β :=
  match m with
  | [] => none
  | (k', v) :: rest => if k' = k then some v else dictGet rest k

/-- Stable insertion of `x` into a list already sorted by `key` in
descending order: `x` goes before the first element whose key is not larger,
i.e. after every earlier-listed element with the same key. -/
def insertDescBy {α : Type} (key : α → Int) (x : α) : List α → List α
  | [] => [x]
  | y :: ys => if key x ≥ key y then x :: y :: ys else y :: insertDescBy key x ys

/-- Stable descending sort by an integer key, modelling CPython's
`sorted(xs, key=key, reverse=True)`: elements with equal keys keep their
original relative order. -/
def sortDescBy {α : Type} (key : α → Int) : List α → List α
  | [] => []
  | x :: xs => insertDescBy key x (sortDescBy key xs)

/-! ### `event_matcher.py` -/

/-- `matches_calendar(calendar_filter, calendar_id)`: the wildcard string
`"*"` matches everything, any other single string is treated as a one-item
list, and a list matches by membership. -/
def matches_calendar (calendar_filter : CalendarFilter) (calendar_id : String) : Bool :=
  match calendar_filter with
  | .strF s => if s = "*" then true else calendar_id = s
  | .listF ids => ids.contains calendar_id

/-- Does `needle` occur at the front of `hay`? (character-list version). -/
def listStartsWith : List Char → List Char → Bool
  | [], _ => true
  | _ :: _, [] => false
  | a :: as, b :: bs => a = b && listStartsWith as bs

/-- Does `needle` occur anywhere inside `hay`? -/
def listContainsSub (needle hay : List Char) : Bool :=
  (List.range (hay.length + 1)).any (fun i => listStartsWith needle (hay.drop i))

namespace EventMatcher

/-- The `SUPPORTED_MATCH_TYPES` constant of `EventMatcher`. -/
def SUPPORTED_MATCH_TYPES : List String := ["summary", "summary_contains", "regex"]

/-- `_match_summary_exact`: case-sensitive equality of pattern and summary. -/
def matchSummaryExact (pattern : String) (event : Event) : Bool :=
  event.summary = pattern

/-- `_match_summary_contains`: case-insensitive substring test. -/
def matchSummaryContains (substring : String) (event : Event) : Bool :=
  listContainsSub substring.toLower.toList event.summary.toLower.toList

/-! Model of the external `re` module on the regular-expression core.
`parseAtom/parsePostfix/parseCat/parseAlt` form a recursive-descent parser
(driven by a fuel argument that dominates the input length); any pattern it
cannot parse — unbalanced parentheses such as `"(unclosed"`, a dangling
operator, an unsupported metacharacter — models an `re.error`. -/

/-- Characters with meaning (or unsupported meaning) in a pattern; a literal
atom may be any other character. -/
def isMetaChar (c : Char) : Bool :=
  c = '(' || c = ')' || c = '|' || c = '*' || c = '+' || c = '?' ||
  c = '.' || c = '[' || c = ']' || c = '{' || c = '}' || c = '\\' ||
  c = '^' || c = '$'

/-- Greedily apply the postfix operators `*`, `+`, `?` to a parsed atom. -/
def parsePostfix (r : RegularExpression Char) :
    List Char → RegularExpression Char × List Char
  | '*' :: rest => parsePostfix r.star rest
  | '+' :: rest => parsePostfix (RegularExpression.comp r r.star) rest
  | '?' :: rest => parsePostfix (RegularExpression.plus r RegularExpression.epsilon) rest
  | cs => (r, cs)

mutual

/-- Parse a single atom: a parenthesised alternation or a literal character. -/
def parseAtom : Nat → List Char → Option (RegularExpression Char × List Char)
  | 0, _ => none
  | fuel + 1, cs =>
    match cs with
    | '(' :: rest =>
        match parseAlt fuel rest with
        | some (r, ')' :: rest') => some (r, rest')
        | _ => none
    | c :: rest => if isMetaChar c then none else some (RegularExpression.char c, rest)
    | [] => none

/-- Parse a concatenation of postfixed atoms, stopping at `|`, `)` or the
end of the pattern. -/
def parseCat : Nat → List Char → Option (RegularExpression Char × List Char)
  | 0, _ => none
  | fuel + 1, cs =>
    match cs with
    | [] => some (RegularExpression.epsilon, [])
    | '|' :: _ => some (RegularExpression.epsilon, cs)
    | ')' :: _ => some (RegularExpression.epsilon, cs)
    | _ =>
        match parseAtom fuel cs with
        | none => none
        | some (r, rest) =>
            let (r', rest') := parsePostfix r rest
            match parseCat fuel rest' with
            | none => none
            | some (r'', rest'') => some (RegularExpression.comp r' r'', rest'')

/-- Parse an alternation `cat ('|' cat)*`. -/
def parseAlt : Nat → List Char → Option (RegularExpression Char × List Char)
  | 0, _ => none
  | fuel + 1, cs =>
    match parseCat fuel cs with
    | none => none
    | some (r, '|' :: rest) =>
        match parseAlt fuel rest with
        | none => none
        | some (r', rest') => some (RegularExpression.plus r r', rest')
    | some (r, rest) => some (r, rest)

end

/-- Model of `re.compile`: parse the whole pattern or fail. -/
def compileRE (pattern : String) : Option (RegularExpression Char) :=
  match parseAlt (2 * pattern.length + 2) pattern.toList with
  | some (r, []) => some r
  | _ => none

/-- Model of a truthy `re.match(pattern, s)` for a compiled pattern:
anchored at position 0, i.e. some prefix of `s` is in the language. -/
def reMatchBool (r : RegularExpression Char) (s : String) : Bool :=
  (List.range (s.toList.length + 1)).any (fun n => r.rmatch (s.toList.take n))

/-- `_match_regex`: compile the pattern, returning `False` on `re.error`
(fail closed), otherwise test `re.match` against the summary. -/
def matchRegex (pattern : String) (event : Event) : Bool :=
  match compileRE pattern with
  | none => false
  | some r => reMatchBool r event.summary

/-- `EventMatcher.matches(match_config, event)`: reject missing/falsy type
or value and unsupported types, then dispatch on the match type.  (The
source method is called `matches`, a reserved word in Lean.) -/
def eventMatches (matchConfig : MatchConfig) (event : Event) : Bool :=
  if matchConfig.type = "" || matchConfig.value = "" then false
  else if ¬ (SUPPORTED_MATCH_TYPES.contains matchConfig.type) then false
  else if matchConfig.type = "summary" then matchSummaryExact matchConfig.value event
  else if matchConfig.type = "summary_contains" then matchSummaryContains matchConfig.value event
  else if matchConfig.type = "regex" then matchRegex matchConfig.value event
  else false

end EventMatcher

/-! ### `binding_manager.py` -/

/-- The calendar filter of a binding as read by the resolver:
`b.get("calendars", [])`, i.e. an absent field defaults to the empty list. -/
def bindingCalendars (b : Binding) : CalendarFilter :=
  b.calendars.getD (.listF [])

/-- `BindingManager._find_slot_by_id`: first slot whose `id` equals the
requested id (`slot.get("id") == slot_id`). -/
def find_slot_by_id (slots : List Slot) (slot_id : Option String) : Option Slot :=
  slots.find? (fun s => some s.id = slot_id)

/-- `BindingManager.resolve_slot_for_event(event, calendar_id,
available_slots)` over a binding list: filter by calendar, filter by event
match, stable-sort by priority descending, take the first element, and look
its `slot_id` up among the available slots. -/
def resolve_slot_for_event (bindings : List Binding) (event : Event)
    (calendar_id : String) (available_slots : List Slot) : Option Slot :=
  let calendar_bindings := bindings.filter
    (fun b => matches_calendar (bindingCalendars b) calendar_id)
  if calendar_bindings.isEmpty then none
  else
    let matching_bindings := calendar_bindings.filter
      (fun b => EventMatcher.eventMatches b.matchConfig event)
    if matching_bindings.isEmpty then none
    else
      let sorted_bindings := sortDescBy (fun b => (b.priority.getD 0)) matching_bindings
      match sorted_bindings with
      | [] => none
      | winner :: _ => find_slot_by_id available_slots winner.slot_id

/-- The list of bindings that survive steps 1 and 2 of the resolution
algorithm (calendar filter, then event-match filter). -/
def matching_candidates (bindings : List Binding) (event : Event)
    (calendar_id : String) : List Binding :=
  (bindings.filter (fun b => matches_calendar (bindingCalendars b) calendar_id)).filter
    (fun b => EventMatcher.eventMatches b.matchConfig event)

/-! ### `applier.py` -/

/-- `MAX_RETRIES` constant of `applier.py` (retries after the initial
attempt). -/
def MAX_RETRIES : Nat := 1

/-- Per-device application outcome, as the result dict of
`_apply_to_single_device`. -/
structure DeviceResult where
  entity_id : String
  success : Bool
  attempts : Nat
  error : Option String
deriving Repr, DecidableEq

/-- A device's behaviour under repeated attempts: attempt index ↦ error
message raised (or `none` for success).  Models `_execute_payload`. -/
abbrev AttemptOracle := Nat → Option String

/-- The retry loop of `_apply_to_single_device`: `while attempt <=
MAX_RETRIES`, returning on the first success with `attempts = attempt + 1`,
recording the last error and retrying otherwise, and falling through to a
failed result with `attempts = MAX_RETRIES + 1`. -/
def applyLoop (behavior : AttemptOracle) (entity_id : String)
    (attempt : Nat) (lastError : Option String) : DeviceResult :=
  if _h : attempt ≤ MAX_RETRIES then
    match behavior attempt with
    | none =>
        { entity_id := entity_id, success := true, attempts := attempt + 1, error := none }
    | some err => applyLoop behavior entity_id (attempt + 1) (some err)
  else
    { entity_id := entity_id, success := false, attempts := MAX_RETRIES + 1,
      error := lastError }
termination_by MAX_RETRIES + 1 - attempt
decreasing_by omega

/-- `_apply_to_single_device`: run the retry loop from attempt 0. -/
def applyToSingleDevice (behavior : AttemptOracle) (entity_id : String) : DeviceResult :=
  applyLoop behavior entity_id 0 none

/-- The summary dict returned by `apply_to_devices`. -/
structure ApplySummary where
  total : Nat
  succeeded : Nat
  failed : Nat
  results : List DeviceResult
deriving Repr, DecidableEq

/-- A behaviour oracle for a whole pool: device id ↦ per-attempt oracle. -/
abbrev DeviceBehavior := String → AttemptOracle

/-- `ClimatePayloadApplier.apply_to_devices`: empty entity list or empty
payload short-circuit to an empty summary; otherwise each device is
processed sequentially and independently, each contributing exactly one
`DeviceResult`. -/
def apply_to_devices (behavior : DeviceBehavior) (climate_entities : List String)
    (payload : Payload) : ApplySummary :=
  if climate_entities.isEmpty || payload.isEmpty then
    { total := 0, succeeded := 0, failed := 0, results := [] }
  else
    let results := climate_entities.map (fun e => applyToSingleDevice (behavior e) e)
    { total := climate_entities.length,
      succeeded := (results.filter (fun r => r.success)).length,
      failed := (results.filter (fun r => ¬ r.success)).length,
      results := results }

/-! ### `engine.py` — `_apply_multiple_slots` and `evaluate`

The engine's cycle is modelled as a pure state-passing function.  Only the
real-application path is modelled (`dry_run = False`, applier present);
dry-run differs solely in not performing downstream calls.  The
`resolved_bindings` input is taken as given data (the tuples the engine's
`resolve_slots_for_active_events` is typed to produce). -/

/-- A value of the engine's `current_state` dict: the
`(slot_id, binding_id, slot, target_entities, event_summary,
binding_metadata)` tuple. -/
structure StateEntry where
  slot_id : String
  binding_id : String
  slot : Slot
  target_entities : Option (List String)
  event_summary : String
  metadata : BindingMetadata
deriving Repr, DecidableEq

/-- The effective target list of one resolved tuple before exclusions:
`target_entities` if truthy (non-`None`, non-empty), else the global pool. -/
def entitiesForBinding (t : ResolvedTuple) (pool : List String) : List String :=
  match t.target_entities with
  | none => pool
  | some [] => pool
  | some l => l

/-- One iteration of the `current_state` construction loop: drop excluded
entities, drop entities already claimed by a higher-priority tuple, and
dict-assign the remainder. -/
def assignTuple (pool : List String) (acc : List (String × StateEntry))
    (t : ResolvedTuple) : List (String × StateEntry) :=
  let entities_to_apply := (entitiesForBinding t pool).filter
    (fun e => ¬ t.slot.excluded_entities.contains e)
  let entities_available := entities_to_apply.filter
    (fun e => (dictGet acc e).isNone)
  entities_available.foldl
    (fun m e => dictInsert m e
      { slot_id := t.slot.id, binding_id := t.metadata.binding_id, slot := t.slot,
        target_entities := t.target_entities, event_summary := t.event_summary,
        metadata := t.metadata })
    acc

/-- The desired-state construction of `_apply_multiple_slots`: stable-sort
the resolved tuples by priority descending, then let each tuple claim the
still-unclaimed entities of its effective target set. -/
def buildCurrentState (resolved : List ResolvedTuple) (pool : List String) :
    List (String × StateEntry) :=
  (sortDescBy (fun t => t.priority) resolved).foldl (assignTuple pool) []

/-- One entry of `entities_to_apply_changes`: the
`(entity_id, slot_id, slot, binding_metadata, event_summary, ...)` tuple
(the constant `{"action": "apply"}` component is omitted). -/
structure ChangeEntry where
  entity_id : String
  slot_id : String
  slot : Slot
  metadata : BindingMetadata
  event_summary : String
deriving Repr, DecidableEq

/-- The reconciliation diff of `_apply_multiple_slots`: an entity is changed
if it is absent from the previous state or recorded there with a different
`(slot_id, binding_id)` pair. -/
def computeChanges (current : List (String × StateEntry))
    (prev : List (String × (String × String))) : List ChangeEntry :=
  current.filterMap (fun p =>
    let change : ChangeEntry :=
      { entity_id := p.1, slot_id := p.2.slot_id, slot := p.2.slot,
        metadata := p.2.metadata, event_summary := p.2.event_summary }
    match dictGet prev p.1 with
    | none => some change
    | some pv => if pv = (p.2.slot_id, p.2.binding_id) then none else some change)

/-- The `removed` log of `_apply_multiple_slots`: entities recorded in the
previous state that no longer appear in the desired state (only logged, no
state effect — no revert is issued). -/
def removedEntities (current : List (String × StateEntry))
    (prev : List (String × (String × String))) : List String :=
  (prev.filter (fun p => (dictGet current p.1).isNone)).map (fun p => p.1)

/-- One member of a `(slot_id, binding_id)` group: the
`(entity_id, slot, binding_metadata, event_summary)` tuple. -/
structure GroupItem where
  entity_id : String
  slot : Slot
  metadata : BindingMetadata
  event_summary : String
deriving Repr, DecidableEq

/-- Group the changed entities by `(slot_id, binding_id)` in first-occurrence
order (the `entities_by_binding` dict). -/
def groupChanges (changes : List ChangeEntry) :
    List ((String × String) × List GroupItem) :=
  changes.foldl
    (fun acc c => dictInsertAppend acc (c.slot_id, c.metadata.binding_id)
      { entity_id := c.entity_id, slot := c.slot, metadata := c.metadata,
        event_summary := c.event_summary })
    []

/-- The payload of one `emit_binding_matched` call (`events.py`). -/
structure Notification where
  binding_id : String
  event_summary : String
  calendar_id : String
  slot_id : String
  slot_label : String
  match_type : String
  match_value : String
  priority : Int
  target_entities : List String
deriving Repr, DecidableEq

/-- The notification the engine emits for one group: fields taken from the
group's first entry, with `calendar_id` passed as `""` and `priority` as `0`
(both literally hardcoded at the call site in `_apply_multiple_slots`). -/
def notificationForGroup (key : String × String) (data : List GroupItem) :
    Option Notification :=
  match data with
  | [] => none
  | first :: _ =>
      some { binding_id := first.metadata.binding_id,
             event_summary := first.event_summary,
             calendar_id := "",
             slot_id := key.1,
             slot_label := first.slot.label,
             match_type := first.metadata.match_type,
             match_value := first.metadata.match_value,
             priority := 0,
             target_entities := data.map (fun g => g.entity_id) }

/-- `default_climate_payload or climate_payload`-style fallback of
`_apply_slot_to_entities` (Python `or`: an absent or empty first payload
falls back to the second, which itself defaults to `{}`). -/
def slotDefaultPayload (s : Slot) : Payload :=
  match s.default_climate_payload with
  | some p => if p.isEmpty then s.climate_payload.getD [] else p
  | none => s.climate_payload.getD []

/-- The payload effectively applied to one entity: its override if present,
else the slot default. -/
def effectivePayload (slot : Slot) (e : String) : Payload :=
  match dictGet slot.entity_overrides e with
  | some p => p
  | none => slotDefaultPayload slot

/-- The `entities_by_payload` sub-grouping of `_apply_slot_to_entities`:
entities sharing an identical effective payload are applied together. -/
def groupEntitiesByPayload (slot : Slot) (entities : List String) :
    List (Payload × List String) :=
  entities.foldl (fun acc e => dictInsertAppend acc (effectivePayload slot e) e) []

/-- `_apply_slot_to_entities` on the real-application path: apply each
payload sub-group through the applier, concatenating the per-device
results. -/
def applySlotToEntities (behavior : DeviceBehavior) (slot : Slot)
    (entities : List String) : List DeviceResult :=
  (groupEntitiesByPayload slot entities).foldl
    (fun acc pg => acc ++ (apply_to_devices behavior pg.2 pg.1).results) []

/-- Everything one cycle produces: the desired state, the diff, the groups,
the emitted per-group notifications, the per-group device results, the
`applied_count` accumulator, the removed-entities log, and the replacement
previous-state map. -/
structure CycleOutcome where
  currentState : List (String × StateEntry)
  changes : List ChangeEntry
  groups : List ((String × String) × List GroupItem)
  notifications : List Notification
  applyResults : List ((String × String) × List DeviceResult)
  appliedCount : Nat
  removed : List String
  newState : List (String × (String × String))
deriving Repr, DecidableEq

/-- `_apply_multiple_slots`: build the desired state, diff it against the
previous state, group and apply the changes, emit one notification per
group, and unconditionally replace the previous state with the projection
of the full desired state. -/
def applyMultipleSlots (prev : List (String × (String × String)))
    (resolved : List ResolvedTuple) (pool : List String)
    (behavior : DeviceBehavior) : CycleOutcome :=
  let current := buildCurrentState resolved pool
  let changes := computeChanges current prev
  let groups := groupChanges changes
  { currentState := current,
    changes := changes,
    groups := groups,
    notifications := groups.filterMap (fun g => notificationForGroup g.1 g.2),
    applyResults := groups.map (fun g =>
      (g.1, match g.2 with
            | [] => []
            | first :: _ => applySlotToEntities behavior first.slot
                (g.2.map (fun i => i.entity_id)))),
    appliedCount := groups.foldl (fun n g => n + g.2.length) 0,
    removed := removedEntities current prev,
    newState := current.map (fun p => (p.1, (p.2.slot_id, p.2.binding_id))) }

/-- The cycle step of `ClimateControlEngine.evaluate` downstream of slot
resolution: `_apply_multiple_slots` runs — and hence the previous state is
touched — only when the resolved list is non-empty
(`if resolved_bindings:`). -/
def evaluateCycle (prev : List (String × (String × String)))
    (resolved : List ResolvedTuple) (pool : List String)
    (behavior : DeviceBehavior) : CycleOutcome :=
  if resolved.isEmpty then
    { currentState := [], changes := [], groups := [], notifications := [],
      applyResults := [], appliedCount := 0, removed := [], newState := prev }
  else
    applyMultipleSlots prev resolved pool behavior


/-! ### Association-list lemmas -/

theorem dictGet_dictInsert {α β : Type} [DecidableEq α] (m : List (α × β)) (k e : α) (v : β) :
    dictGet (dictInsert m k v) e = if k = e then some v else dictGet m e := by
  induction m with
  | nil => simp [dictInsert, dictGet]
  | cons p rest ih =>
    obtain ⟨k', v'⟩ := p
    by_cases hk : k' = k
    · subst hk
      by_cases he : k' = e <;> simp [dictInsert, dictGet, he]
    · by_cases he : k' = e
      · subst he
        have hek : ¬ k = k' := fun h => hk h.symm
        simp [dictInsert, dictGet, hk, hek]
      · simp [dictInsert, dictGet, hk, he, ih]

/-- Keys of a dict after assignment: unchanged if the key was present,
the key appended otherwise. -/
theorem keys_dictInsert {α β : Type} [DecidableEq α] (m : List (α × β)) (k : α) (v : β) :
    (dictInsert m k v).map Prod.fst =
      if (dictGet m k).isSome then m.map Prod.fst else m.map Prod.fst ++ [k] := by
  induction m with
  | nil => simp [dictInsert, dictGet]
  | cons p rest ih =>
    obtain ⟨k', v'⟩ := p
    by_cases hk : k' = k
    · subst hk
      simp [dictInsert, dictGet]
    · simp only [dictInsert, if_neg hk, List.map_cons, dictGet, ih]
      by_cases hs : (dictGet rest k).isSome <;> simp [hs]

theorem dictGet_isSome_iff_mem_keys {α β : Type} [DecidableEq α] (m : List (α × β)) (k : α) :
    (dictGet m k).isSome ↔ k ∈ m.map Prod.fst := by
  induction m with
  | nil => simp [dictGet]
  | cons p rest ih =>
    obtain ⟨k', v'⟩ := p
    by_cases hk : k' = k
    · subst hk; simp [dictGet]
    · have hkk : ¬ k = k' := fun h => hk h.symm
      simp [dictGet, hk, hkk, ih]

theorem nodup_keys_dictInsert {α β : Type} [DecidableEq α]
    (m : List (α × β)) (k : α) (v : β) (h : (m.map Prod.fst).Nodup) :
    ((dictInsert m k v).map Prod.fst).Nodup := by
  rw [keys_dictInsert]
  by_cases hs : (dictGet m k).isSome
  · simpa [hs] using h
  · have hk : k ∉ m.map Prod.fst := fun hmem =>
      hs ((dictGet_isSome_iff_mem_keys m k).mpr hmem)
    simp only [if_neg hs]
    exact List.nodup_append.mpr ⟨h, List.nodup_singleton k, by
      simpa [List.disjoint_singleton] using hk⟩

/-- Looking up after a block of insertions of one common value. -/
theorem dictGet_foldl_dictInsert {α β : Type} [DecidableEq α]
    (l : List α) (v : β) (acc : List (α × β)) (e : α) :
    dictGet (l.foldl (fun m k => dictInsert m k v) acc) e =
      if e ∈ l then some v else dictGet acc e := by
  induction l generalizing acc with
  | nil => simp
  | cons a as ih =>
    by_cases ha : e = a
    · subst ha
      by_cases hin : e ∈ as
      · simp [ih, hin]
      · simp [ih, hin, dictGet_dictInsert]
    · have hae : ¬ a = e := fun h => ha h.symm
      by_cases hin : e ∈ as <;>
        simp [ih, hin, dictGet_dictInsert, ha, hae]

theorem nodup_keys_foldl_dictInsert {α β : Type} [DecidableEq α]
    (l : List α) (v : β) (acc : List (α × β)) (h : (acc.map Prod.fst).Nodup) :
    ((l.foldl (fun m k => dictInsert m k v) acc).map Prod.fst).Nodup := by
  induction l generalizing acc with
  | nil => simpa
  | cons a as ih => exact ih _ (nodup_keys_dictInsert _ _ _ h)

/-! ### Stable-sort lemmas -/

/-- On a two-element list with strictly decreasing second key, the stable
descending sort returns the higher-keyed element first, for either input
order. -/
theorem sortDescBy_pair_of_lt {α : Type} (key : α → Int) (a b : α)
    (h : key b < key a) :
    sortDescBy key [a, b] = [a, b] ∧ sortDescBy key [b, a] = [a, b] := by
  constructor
  · simp [sortDescBy, insertDescBy, le_of_lt h]
  · simp [sortDescBy, insertDescBy, not_le.mpr h]

/-- On a two-element list with equal keys, the stable descending sort keeps
the original order: the earlier element stays first. -/
theorem sortDescBy_pair_of_eq {α : Type} (key : α → Int) (a b : α)
    (h : key a = key b) :
    sortDescBy key [a, b] = [a, b] := by
  simp [sortDescBy, insertDescBy, le_of_eq h.symm]

/-! ### Resolver lemmas -/

/-- When some binding survives steps 1–2, the resolver is the slot lookup of
the head of the stable descending sort of the surviving candidates. -/
theorem resolve_slot_for_event_eq_of_candidates (bindings : List Binding)
    (event : Event) (calendar_id : String) (slots : List Slot)
    (h : matching_candidates bindings event calendar_id ≠ []) :
    resolve_slot_for_event bindings event calendar_id slots =
      match sortDescBy (fun b => (b.priority.getD 0))
          (matching_candidates bindings event calendar_id) with
      | [] => none
      | winner :: _ => find_slot_by_id slots winner.slot_id := by
  rw [matching_candidates] at h ⊢
  rw [resolve_slot_for_event]
  by_cases h1 : (bindings.filter
      (fun b => matches_calendar (bindingCalendars b) calendar_id)).isEmpty
  · exact absurd (by rw [List.isEmpty_iff.mp h1, List.filter_nil]) h
  · simp only [h1, if_false]
    by_cases h2 : ((bindings.filter
        (fun b => matches_calendar (bindingCalendars b) calendar_id)).filter
        (fun b => EventMatcher.eventMatches b.matchConfig event)).isEmpty
    · exact absurd (List.isEmpty_iff.mp h2) h
    · simp only [h2, if_false]
      simp

/-! ### Sample data for the concrete evaluations -/

/-- Sample slot `slot_a`. -/
def slotA : Slot :=
  { id := "slot_a", label := "Comfort",
    excluded_entities := [], entity_overrides := [],
    default_climate_payload := some [("temperature", "21")],
    climate_payload := none }

/-- Sample slot `slot_b`. -/
def slotB : Slot :=
  { id := "slot_b", label := "Eco",
    excluded_entities := [], entity_overrides := [],
    default_climate_payload := some [("temperature", "17")],
    climate_payload := none }

/-- Sample active event. -/
def eventMorning : Event :=
  { summary := "Morning", calendar_id := "calendar.work" }

/-- Earlier-defined binding `Ra`: wildcard calendar, exact summary match,
priority 5, targetting `slot_a`. -/
def bindingRa : Binding :=
  { id := "ra", calendars := some (.strF "*"),
    matchConfig := { type := "summary", value := "Morning" },
    slot_id := some "slot_a", priority := some 5 }

/-- Later-defined binding `Rb`: identical filter and pattern and the same
priority 5, targetting `slot_b`. -/
def bindingRb : Binding :=
  { id := "rb", calendars := some (.strF "*"),
    matchConfig := { type := "summary", value := "Morning" },
    slot_id := some "slot_b", priority := some 5 }

/-- Low-priority variant of `Ra` (priority 3) targetting `slot_a`. -/
def bindingLow : Binding :=
  { id := "low", calendars := some (.strF "*"),
    matchConfig := { type := "summary", value := "Morning" },
    slot_id := some "slot_a", priority := some 3 }

/-- Claim C1 (status: code bug in the source).  The spec — and the
resolver's own docstring, "At same priority, last defined wins" — require
that of two equal-priority matching bindings `[Ra, Rb]` the later-defined
`Rb` wins.  The implementation stable-sorts by priority descending and takes
element 0; a stable sort keeps equal-priority elements in insertion order,
so the *first*-defined `Ra` wins: on the failing input below the resolver
returns `Ra`'s slot, not `Rb`'s. -/
theorem tiebreak_code_selects_first_defined :
    resolve_slot_for_event [bindingRa, bindingRb] eventMorning "calendar.work"
        [slotA, slotB] = some slotA ∧
    some slotA ≠ find_slot_by_id [slotA, slotB] bindingRb.slot_id ∧
    bindingRa.priority = bindingRb.priority := by
  refine ⟨by decide, by decide, by decide⟩

/-- Claim C2 (status: code bug in the source).  The spec — and the engine,
which documents and unpacks the resolver's result as a
`(slot, target_entities, priority, binding_metadata)` tuple — require a
`ResolvedMatch` from which rule, slot, target devices, priority and source
label are recoverable.  `resolve_slot_for_event` returns only the slot
configuration: two resolutions through different bindings (different id and
priority) yield identical results, so neither the winning rule nor its
priority is recoverable from what the resolver returns. -/
theorem resolver_returns_only_slot :
    resolve_slot_for_event [bindingRa] eventMorning "calendar.work" [slotA, slotB] =
      resolve_slot_for_event [bindingLow] eventMorning "calendar.work" [slotA, slotB] ∧
    bindingRa.priority ≠ bindingLow.priority ∧
    bindingRa.id ≠ bindingLow.id ∧
    resolve_slot_for_event [bindingRa] eventMorning "calendar.work" [slotA, slotB] =
      some slotA := by
  refine ⟨by decide, by decide, by decide, by decide⟩

/-- Claim C7: for every binding list whose calendar- and pattern-matching
candidates are exactly the two bindings `b1` and `b2` (in either relative
order) with `b1`'s priority strictly higher, the resolver resolves to
`b1`'s slot — the strictly higher-priority binding wins regardless of the
two bindings' relative order in the input list. -/
theorem priority_ordering_resolver (bindings : List Binding) (event : Event)
    (calendar_id : String) (slots : List Slot) (b1 b2 : Binding)
    (hcand : matching_candidates bindings event calendar_id = [b1, b2] ∨
             matching_candidates bindings event calendar_id = [b2, b1])
    (hp : b2.priority.getD 0 < b1.priority.getD 0) :
    resolve_slot_for_event bindings event calendar_id slots =
      find_slot_by_id slots b1.slot_id := by
  obtain ⟨hs1, hs2⟩ := sortDescBy_pair_of_lt (fun b => (b.priority.getD 0)) b1 b2 hp
  rcases hcand with hcand | hcand
  · rw [resolve_slot_for_event_eq_of_candidates _ _ _ _ (by rw [hcand]; simp),
      hcand, hs1]
  · rw [resolve_slot_for_event_eq_of_candidates _ _ _ _ (by rw [hcand]; simp),
      hcand, hs2]

/-- A binding whose pattern does not match the sample event. -/
def bindingOther : Binding :=
  { id := "other", calendars := some (.strF "*"),
    matchConfig := { type := "summary", value := "Evening" },
    slot_id := some "slot_b", priority := some 8 }

/-- Witness for C7 at the spec's concrete priorities 5 and 3, with a
non-matching higher-priority binding also present in both lists. -/
theorem priority_ordering_resolver_witness :
    resolve_slot_for_event [bindingRa, bindingOther, bindingLow] eventMorning
        "calendar.work" [slotA, slotB] =
      find_slot_by_id [slotA, slotB] bindingRa.slot_id ∧
    resolve_slot_for_event [bindingLow, bindingOther, bindingRa] eventMorning
        "calendar.work" [slotA, slotB] =
      find_slot_by_id [slotA, slotB] bindingRa.slot_id :=
  ⟨priority_ordering_resolver [bindingRa, bindingOther, bindingLow] eventMorning
      "calendar.work" [slotA, slotB] bindingRa bindingLow (Or.inl (by decide))
      (by decide),
   priority_ordering_resolver [bindingLow, bindingOther, bindingRa] eventMorning
      "calendar.work" [slotA, slotB] bindingRa bindingLow (Or.inr (by decide))
      (by decide)⟩

/-- Claim C10: a binding whose `calendars` field is absent (defaulted to the
empty list) or explicitly the empty list matches no calendar id, so step 1
of resolution removes it and the resolver's result is unchanged if all such
bindings are deleted from the input: the implicit default source filter is
"no calendars", not "all calendars". -/
theorem default_calendar_filter_is_empty (bindings : List Binding)
    (event : Event) (calendar_id : String) (slots : List Slot) :
    (∀ b : Binding, b.calendars = none ∨ b.calendars = some (.listF []) →
        matches_calendar (bindingCalendars b) calendar_id = false) ∧
    resolve_slot_for_event bindings event calendar_id slots =
      resolve_slot_for_event
        (bindings.filter (fun b => !(bindingCalendars b == CalendarFilter.listF [])))
        event calendar_id slots := by
  constructor
  · rintro b (hb | hb) <;> simp [bindingCalendars, hb, matches_calendar]
  · have hfilt : (bindings.filter
        (fun b => !(bindingCalendars b == CalendarFilter.listF []))).filter
          (fun b => matches_calendar (bindingCalendars b) calendar_id) =
        bindings.filter (fun b => matches_calendar (bindingCalendars b) calendar_id) := by
      rw [List.filter_comm]
      apply List.filter_eq_self.mpr
      intro b hb
      have hmem := List.of_mem_filter hb
      cases hcal : bindingCalendars b with
      | strF s => simp
      | listF ids =>
        cases ids with
        | nil => rw [hcal] at hmem; simp [matches_calendar] at hmem
        | cons x xs => simp
    rw [resolve_slot_for_event, resolve_slot_for_event, hfilt]

/-- Witness for C10: a binding with an absent calendars field and one with
an explicitly empty list both fail `matches_calendar`, and deleting them
leaves the resolution of the sample input unchanged. -/
theorem default_calendar_filter_is_empty_witness :
    matches_calendar (bindingCalendars
      { id := "noCal", calendars := none,
        matchConfig := { type := "summary", value := "Morning" },
        slot_id := some "slot_a", priority := some 9 }) "calendar.work" = false :=
  (default_calendar_filter_is_empty [] eventMorning "calendar.work" []).1
    { id := "noCal", calendars := none,
      matchConfig := { type := "summary", value := "Morning" },
      slot_id := some "slot_a", priority := some 9 } (Or.inl rfl)

/-- Claim C6: regex matching fails closed and is anchored.  A pattern the
compiler rejects (modelling `re.error`) makes `_match_regex` return `false`
for every event — as a total function it cannot throw into the resolver —
and the spec's concrete uncompilable pattern `"(unclosed"` is rejected;
for every pattern that does compile, a truthy match is equivalent to some
prefix of the label (a match starting at position 0) lying in the
pattern's language. -/
theorem regex_fail_closed_and_anchored :
    (∀ (pattern : String) (event : Event),
        EventMatcher.compileRE pattern = none →
        EventMatcher.matchRegex pattern event = false) ∧
    EventMatcher.compileRE "(unclosed" = none ∧
    (∀ (pattern : String) (r : RegularExpression Char) (event : Event),
        EventMatcher.compileRE pattern = some r →
        (EventMatcher.matchRegex pattern event = true ↔
          ∃ n ≤ event.summary.toList.length,
            event.summary.toList.take n ∈ r.matches')) := by
  refine ⟨?_, ?_, ?_⟩
  · intro pattern event h
    rw [EventMatcher.matchRegex, h]
  · rfl
  · intro pattern r event h
    rw [EventMatcher.matchRegex, h]
    unfold EventMatcher.reMatchBool
    rw [List.any_eq_true]
    constructor
    · rintro ⟨n, hn, hr⟩
      exact ⟨n, Nat.lt_succ_iff.mp (List.mem_range.mp hn),
        (RegularExpression.rmatch_iff_matches' r _).mp hr⟩
    · rintro ⟨n, hn, hr⟩
      exact ⟨n, List.mem_range.mpr (Nat.lt_succ_iff.mpr hn),
        (RegularExpression.rmatch_iff_matches' r _).mpr hr⟩

/-- Witness for C6: the uncompilable pattern `"(unclosed"` does not match a
sample label, and the compilable pattern `"a"` matches the label `"abc"`
exactly through a prefix in its language. -/
theorem regex_fail_closed_and_anchored_witness :
    EventMatcher.matchRegex "(unclosed" { summary := "Morning Standup", calendar_id := "calendar.work" } = false ∧
    (EventMatcher.matchRegex "a" { summary := "abc", calendar_id := "calendar.work" } = true ↔
      ∃ n ≤ ("abc".toList.length),
        "abc".toList.take n ∈
          (RegularExpression.comp (RegularExpression.char 'a')
            RegularExpression.epsilon).matches') :=
  ⟨regex_fail_closed_and_anchored.1 "(unclosed"
      { summary := "Morning Standup", calendar_id := "calendar.work" }
      regex_fail_closed_and_anchored.2.1,
   regex_fail_closed_and_anchored.2.2 "a"
      (RegularExpression.comp (RegularExpression.char 'a') RegularExpression.epsilon)
      { summary := "abc", calendar_id := "calendar.work" } (by rfl)⟩

/-! ### Applier lemmas -/

theorem applyLoop_continue (behavior : AttemptOracle) (entity_id : String)
    (attempt : Nat) (lastError : Option String) (h : attempt ≤ MAX_RETRIES) :
    applyLoop behavior entity_id attempt lastError =
      match behavior attempt with
      | none => { entity_id := entity_id, success := true, attempts := attempt + 1,
                  error := none }
      | some err => applyLoop behavior entity_id (attempt + 1) (some err) := by
  rw [applyLoop]
  simp [h]

theorem applyLoop_exhausted (behavior : AttemptOracle) (entity_id : String)
    (attempt : Nat) (lastError : Option String) (h : ¬ attempt ≤ MAX_RETRIES) :
    applyLoop behavior entity_id attempt lastError =
      { entity_id := entity_id, success := false, attempts := MAX_RETRIES + 1,
        error := lastError } := by
  rw [applyLoop]
  simp [h]

/-- Claim C5: retry semantics and failure isolation of the applier.  Every
device gets at most `MAX_RETRIES + 1 = 2` attempts; a device failing its first attempt and succeeding on the second yields a
successful result with 2 attempts; a device failing both attempts yields a
failed result with 2 attempts carrying the last error message; and
`apply_to_devices` with a non-empty payload returns one result per listed
device, each computed independently of the others, so no failure aborts the
remaining devices of the group. -/
theorem applier_retry_and_isolation :
    (∀ (behavior : AttemptOracle) (e : String),
        (applyToSingleDevice behavior e).attempts ≤ 2) ∧
    (∀ (behavior : AttemptOracle) (e err : String),
        behavior 0 = some err → behavior 1 = none →
        applyToSingleDevice behavior e =
          { entity_id := e, success := true, attempts := 2, error := none }) ∧
    (∀ (behavior : AttemptOracle) (e e0 e1 : String),
        behavior 0 = some e0 → behavior 1 = some e1 →
        applyToSingleDevice behavior e =
          { entity_id := e, success := false, attempts := 2, error := some e1 }) ∧
    (∀ (behavior : DeviceBehavior) (entities : List String) (payload : Payload),
        payload ≠ [] →
        (apply_to_devices behavior entities payload).results =
          entities.map (fun d => applyToSingleDevice (behavior d) d)) := by
  refine ⟨?_, ?_, ?_, ?_⟩
  · intro behavior e
    rw [applyToSingleDevice,
      applyLoop_continue _ _ _ _ (show 0 ≤ MAX_RETRIES by simp [MAX_RETRIES])]
    cases h0 : behavior 0 with
    | none => simp
    | some err =>
      show (applyLoop behavior e (0 + 1) (some err)).attempts ≤ 2
      rw [applyLoop_continue _ _ _ _ (show 0 + 1 ≤ MAX_RETRIES by simp [MAX_RETRIES])]
      cases h1 : behavior 1 with
      | none => simp
      | some err2 =>
        show (applyLoop behavior e (0 + 1 + 1) (some err2)).attempts ≤ 2
        rw [applyLoop_exhausted _ _ _ _
          (show ¬ 0 + 1 + 1 ≤ MAX_RETRIES by simp [MAX_RETRIES])]
        simp [MAX_RETRIES]
  · intro behavior e err h0 h1
    rw [applyToSingleDevice,
      applyLoop_continue _ _ _ _ (show 0 ≤ MAX_RETRIES by simp [MAX_RETRIES]), h0]
    show applyLoop behavior e (0 + 1) (some err) = _
    rw [applyLoop_continue _ _ _ _ (show 0 + 1 ≤ MAX_RETRIES by simp [MAX_RETRIES]), h1]
  · intro behavior e e0 e1 h0 h1
    rw [applyToSingleDevice,
      applyLoop_continue _ _ _ _ (show 0 ≤ MAX_RETRIES by simp [MAX_RETRIES]), h0]
    show applyLoop behavior e (0 + 1) (some e0) = _
    rw [applyLoop_continue _ _ _ _ (show 0 + 1 ≤ MAX_RETRIES by simp [MAX_RETRIES]), h1]
    show applyLoop behavior e (0 + 1 + 1) (some e1) = _
    rw [applyLoop_exhausted _ _ _ _ (show ¬ 0 + 1 + 1 ≤ MAX_RETRIES by simp [MAX_RETRIES])]
    rfl
  · intro behavior entities payload hp
    rw [apply_to_devices]
    have hpe : payload.isEmpty = false := by
      cases payload with
      | nil => exact absurd rfl hp
      | cons a l => rfl
    cases entities with
    | nil => simp [hpe]
    | cons e es => simp [hpe]

/-- Witness for C5: a pool where device `d1` fails once then succeeds,
device `d2` fails both attempts, and device `d3` succeeds immediately; all
three receive a result, `d1` with `(success, 2 attempts)`, `d2` with
`(failure, 2 attempts, last error)`. -/
theorem applier_retry_and_isolation_witness :
    applyToSingleDevice (fun n => if n = 0 then some "timeout" else none) "d1" =
      { entity_id := "d1", success := true, attempts := 2, error := none } ∧
    applyToSingleDevice (fun n => if n = 0 then some "err0" else some "err1") "d2" =
      { entity_id := "d2", success := false, attempts := 2, error := some "err1" } ∧
    (apply_to_devices
        (fun d n => if d = "d2" then some "down" else if n = 0 && d = "d1" then some "timeout" else none)
        ["d1", "d2", "d3"] [("temperature", "21")]).results =
      ["d1", "d2", "d3"].map (fun d =>
        applyToSingleDevice
          ((fun d n => if d = "d2" then some "down" else if n = 0 && d = "d1" then some "timeout" else none) d) d) :=
  ⟨applier_retry_and_isolation.2.1 (fun n => if n = 0 then some "timeout" else none)
      "d1" "timeout" (by decide) (by decide),
   applier_retry_and_isolation.2.2.1 (fun n => if n = 0 then some "err0" else some "err1")
      "d2" "err0" "err1" (by decide) (by decide),
   applier_retry_and_isolation.2.2.2
      (fun d n => if d = "d2" then some "down" else if n = 0 && d = "d1" then some "timeout" else none)
      ["d1", "d2", "d3"] [("temperature", "21")] (by decide)⟩

/-! ### Engine lemmas -/

/-- How many times a key occurs in an association list. -/
def countKey {α β : Type} [DecidableEq α] (m : List (α × β)) (k : α) : Nat :=
  (m.filter (fun p => p.1 = k)).length

theorem countKey_eq_zero_of_not_mem {α β : Type} [DecidableEq α]
    (m : List (α × β)) (k : α) (h : k ∉ m.map Prod.fst) : countKey m k = 0 := by
  induction m with
  | nil => rfl
  | cons p rest ih =>
    simp only [List.map_cons, List.mem_cons, not_or] at h
    have hne : ¬ p.1 = k := fun hk => h.1 hk.symm
    have hrec := ih h.2
    simpa [countKey, List.filter_cons, hne] using hrec

/-- In a map with distinct keys, a key that is present occurs exactly
once. -/
theorem countKey_eq_one_of_nodup {α β : Type} [DecidableEq α]
    (m : List (α × β)) (k : α) (v : β)
    (hn : (m.map Prod.fst).Nodup) (h : dictGet m k = some v) :
    countKey m k = 1 := by
  induction m with
  | nil => simp [dictGet] at h
  | cons p rest ih =>
    obtain ⟨k', v'⟩ := p
    simp only [List.map_cons, List.nodup_cons] at hn
    by_cases hk : k' = k
    · subst hk
      have hz : countKey rest k' = 0 := countKey_eq_zero_of_not_mem rest k' hn.1
      simp [countKey] at hz ⊢
      exact hz
    · simp only [dictGet, if_neg hk] at h
      have := ih hn.2 h
      simp [countKey, hk] at this ⊢
      exact this

/-- Projecting every value of a distinct-key association list commutes with
lookup. -/
theorem dictGet_map_proj {α β γ : Type} [DecidableEq α]
    (m : List (α × β)) (f : β → γ) (hn : (m.map Prod.fst).Nodup)
    (e : α) (st : β) (hmem : (e, st) ∈ m) :
    dictGet (m.map (fun p => (p.1, f p.2))) e = some (f st) := by
  induction m with
  | nil => cases hmem
  | cons p rest ih =>
    obtain ⟨k', v'⟩ := p
    simp only [List.map_cons, List.nodup_cons] at hn
    rcases List.mem_cons.mp hmem with hhead | htail
    · injection hhead with h1 h2
      subst h1
      subst h2
      simp [dictGet]
    · have hke : ¬ k' = e := by
        intro hk
        subst hk
        exact hn.1 (List.mem_map.mpr ⟨(k', st), htail, rfl⟩)
      simp only [List.map_cons, dictGet, if_neg hke]
      exact ih hn.2 htail

/-- Lookup through one desired-state construction step: an already-claimed
entity keeps its entry. -/
theorem dictGet_assignTuple_of_some (pool : List String)
    (acc : List (String × StateEntry)) (t : ResolvedTuple) (e : String)
    (v : StateEntry) (h : dictGet acc e = some v) :
    dictGet (assignTuple pool acc t) e = some v := by
  rw [assignTuple, dictGet_foldl_dictInsert]
  have hnot : e ∉ ((entitiesForBinding t pool).filter
      (fun x => ¬ t.slot.excluded_entities.contains x)).filter
      (fun x => (dictGet acc x).isNone) := by
    intro hmem
    have := List.of_mem_filter hmem
    rw [h] at this
    simp at this
  simp [hnot, h]

theorem dictGet_foldl_assignTuple_of_some (ts : List ResolvedTuple)
    (pool : List String) (acc : List (String × StateEntry)) (e : String)
    (v : StateEntry) (h : dictGet acc e = some v) :
    dictGet (ts.foldl (assignTuple pool) acc) e = some v := by
  induction ts generalizing acc with
  | nil => simpa using h
  | cons t ts ih => exact ih _ (dictGet_assignTuple_of_some pool acc t e v h)

/-- Lookup through one desired-state construction step: an unclaimed entity
inside the tuple's effective, non-excluded target set gets the tuple's
entry. -/
theorem dictGet_assignTuple_of_fresh (pool : List String)
    (acc : List (String × StateEntry)) (t : ResolvedTuple) (e : String)
    (hnone : dictGet acc e = none)
    (hmem : e ∈ entitiesForBinding t pool)
    (hexc : t.slot.excluded_entities.contains e = false) :
    dictGet (assignTuple pool acc t) e =
      some { slot_id := t.slot.id, binding_id := t.metadata.binding_id,
             slot := t.slot, target_entities := t.target_entities,
             event_summary := t.event_summary, metadata := t.metadata } := by
  rw [assignTuple, dictGet_foldl_dictInsert]
  have hin : e ∈ ((entitiesForBinding t pool).filter
      (fun x => ¬ t.slot.excluded_entities.contains x)).filter
      (fun x => (dictGet acc x).isNone) := by
    refine List.mem_filter.mpr ⟨List.mem_filter.mpr ⟨hmem, ?_⟩, ?_⟩
    · simpa using hexc
    · simp [hnone]
  rw [if_pos hin]

/-- The desired-state construction step preserves distinctness of keys. -/
theorem nodup_keys_assignTuple (pool : List String)
    (acc : List (String × StateEntry)) (t : ResolvedTuple)
    (h : (acc.map Prod.fst).Nodup) :
    ((assignTuple pool acc t).map Prod.fst).Nodup := by
  rw [assignTuple]
  exact nodup_keys_foldl_dictInsert _ _ _ h

/-- Claim C3 groundwork: the desired-state map always has distinct device
keys. -/
theorem nodup_keys_buildCurrentState (resolved : List ResolvedTuple)
    (pool : List String) :
    ((buildCurrentState resolved pool).map Prod.fst).Nodup := by
  rw [buildCurrentState]
  generalize sortDescBy (fun t => t.priority) resolved = ts
  have hgen : ∀ (acc : List (String × StateEntry)), (acc.map Prod.fst).Nodup →
      ((ts.foldl (assignTuple pool) acc).map Prod.fst).Nodup := by
    induction ts with
    | nil => intro acc h; simpa using h
    | cons t ts ih =>
      intro acc h
      exact ih _ (nodup_keys_assignTuple pool acc t h)
  exact hgen [] (by simp)

/-- Diffing a desired state against its own projection yields no changes. -/
theorem computeChanges_self (current : List (String × StateEntry))
    (hn : (current.map Prod.fst).Nodup) :
    computeChanges current
      (current.map (fun p => (p.1, (p.2.slot_id, p.2.binding_id)))) = [] := by
  rw [computeChanges, List.filterMap_eq_nil_iff]
  intro p hp
  rw [dictGet_map_proj current (fun st => (st.slot_id, st.binding_id)) hn p.1 p.2
    (by simpa using hp)]
  simp

theorem countKey_le_one_of_nodup {α β : Type} [DecidableEq α]
    (m : List (α × β)) (hn : (m.map Prod.fst).Nodup) (k : α) :
    countKey m k ≤ 1 := by
  by_cases hmem : k ∈ m.map Prod.fst
  · obtain ⟨v, hv⟩ := Option.isSome_iff_exists.mp
      ((dictGet_isSome_iff_mem_keys m k).mpr hmem)
    rw [countKey_eq_one_of_nodup m k v hn hv]
  · rw [countKey_eq_zero_of_not_mem m k hmem]
    omega

/-- The state entry a resolved tuple contributes for each entity it
claims. -/
def stateEntryOf (t : ResolvedTuple) : StateEntry :=
  { slot_id := t.slot.id, binding_id := t.metadata.binding_id, slot := t.slot,
    target_entities := t.target_entities, event_summary := t.event_summary,
    metadata := t.metadata }

/-- Claim C3: exclusivity of the desired-state map.  For every resolved
list and pool, each device id occurs at most once in the desired-state map;
and in the spec's two-match scenario — one match claiming a device through
explicit `target_devices`, the other through the global pool, with strictly
different priorities — the device is recorded exactly once, assigned to the
higher-priority match (covering both the case where the explicit match and
the case where the pool match has the higher priority), whichever order the
two matches arrive in. -/
theorem desired_state_exclusivity :
    (∀ (resolved : List ResolvedTuple) (pool : List String) (d : String),
        countKey (buildCurrentState resolved pool) d ≤ 1) ∧
    (∀ (m1 m2 : ResolvedTuple) (pool : List String) (d : String) (l : List String),
        m1.target_entities = some l → d ∈ l → l ≠ [] →
        m2.target_entities = none → d ∈ pool →
        m1.slot.excluded_entities.contains d = false →
        m2.priority < m1.priority →
        dictGet (buildCurrentState [m1, m2] pool) d = some (stateEntryOf m1) ∧
        dictGet (buildCurrentState [m2, m1] pool) d = some (stateEntryOf m1) ∧
        countKey (buildCurrentState [m1, m2] pool) d = 1) ∧
    (∀ (m1 m2 : ResolvedTuple) (pool : List String) (d : String) (l : List String),
        m1.target_entities = some l → d ∈ l → l ≠ [] →
        m2.target_entities = none → d ∈ pool →
        m2.slot.excluded_entities.contains d = false →
        m1.priority < m2.priority →
        dictGet (buildCurrentState [m1, m2] pool) d = some (stateEntryOf m2) ∧
        dictGet (buildCurrentState [m2, m1] pool) d = some (stateEntryOf m2) ∧
        countKey (buildCurrentState [m1, m2] pool) d = 1) := by
  refine ⟨?_, ?_, ?_⟩
  · intro resolved pool d
    exact countKey_le_one_of_nodup _ (nodup_keys_buildCurrentState resolved pool) d
  · intro m1 m2 pool d l hl hdl hlne hm2 hdp hexc hp
    have hsort := sortDescBy_pair_of_lt (fun t => t.priority) m1 m2 hp
    have hb1 : buildCurrentState [m1, m2] pool =
        assignTuple pool (assignTuple pool [] m1) m2 := by
      rw [buildCurrentState, hsort.1]
      rfl
    have hb2 : buildCurrentState [m2, m1] pool =
        assignTuple pool (assignTuple pool [] m1) m2 := by
      rw [buildCurrentState, hsort.2]
      rfl
    have hmem1 : d ∈ entitiesForBinding m1 pool := by
      cases l with
      | nil => exact absurd rfl hlne
      | cons x xs => simpa [entitiesForBinding, hl] using hdl
    have h1 : dictGet (assignTuple pool [] m1) d = some (stateEntryOf m1) :=
      dictGet_assignTuple_of_fresh pool [] m1 d rfl hmem1 hexc
    have h2 : dictGet (assignTuple pool (assignTuple pool [] m1) m2) d =
        some (stateEntryOf m1) :=
      dictGet_assignTuple_of_some pool _ m2 d _ h1
    refine ⟨by rw [hb1]; exact h2, by rw [hb2]; exact h2, ?_⟩
    exact countKey_eq_one_of_nodup _ d _
      (nodup_keys_buildCurrentState [m1, m2] pool) (by rw [hb1]; exact h2)
  · intro m1 m2 pool d l hl hdl hlne hm2 hdp hexc hp
    have hsort := sortDescBy_pair_of_lt (fun t => t.priority) m2 m1 hp
    have hb1 : buildCurrentState [m1, m2] pool =
        assignTuple pool (assignTuple pool [] m2) m1 := by
      rw [buildCurrentState, hsort.2]
      rfl
    have hb2 : buildCurrentState [m2, m1] pool =
        assignTuple pool (assignTuple pool [] m2) m1 := by
      rw [buildCurrentState, hsort.1]
      rfl
    have hmem2 : d ∈ entitiesForBinding m2 pool := by
      simpa [entitiesForBinding, hm2] using hdp
    have h1 : dictGet (assignTuple pool [] m2) d = some (stateEntryOf m2) :=
      dictGet_assignTuple_of_fresh pool [] m2 d rfl hmem2 hexc
    have h2 : dictGet (assignTuple pool (assignTuple pool [] m2) m1) d =
        some (stateEntryOf m2) :=
      dictGet_assignTuple_of_some pool _ m1 d _ h1
    refine ⟨by rw [hb1]; exact h2, by rw [hb2]; exact h2, ?_⟩
    exact countKey_eq_one_of_nodup _ d _
      (nodup_keys_buildCurrentState [m1, m2] pool) (by rw [hb1]; exact h2)

/-- Explicit-target resolved tuple used in the concrete scenarios. -/
def tupleExplicit : ResolvedTuple :=
  { slot := slotA, target_entities := some ["d1"], priority := 5,
    metadata := { binding_id := "b1", match_type := "summary",
                  match_value := "Morning" },
    event_summary := "Morning" }

/-- Pool-targetting resolved tuple used in the concrete scenarios. -/
def tuplePool : ResolvedTuple :=
  { slot := slotB, target_entities := none, priority := 3,
    metadata := { binding_id := "b2", match_type := "summary",
                  match_value := "Morning" },
    event_summary := "Morning" }

/-- Pool-targetting resolved tuple with priority 9, higher than the
explicit match's 5. -/
def tuplePoolHigh : ResolvedTuple :=
  { slot := slotB, target_entities := none, priority := 9,
    metadata := { binding_id := "b3", match_type := "summary",
                  match_value := "Morning" },
    event_summary := "Morning" }

/-- Witness for C3: device `d1`, claimed explicitly by a priority-5 match
and via the global pool by a priority-3 match, is recorded exactly once and
for the priority-5 match, in both input orders; against a priority-9
pool match instead, it is recorded once for the pool match. -/
theorem desired_state_exclusivity_witness :
    (dictGet (buildCurrentState [tupleExplicit, tuplePool] ["d1", "d2"]) "d1" =
      some (stateEntryOf tupleExplicit) ∧
    dictGet (buildCurrentState [tuplePool, tupleExplicit] ["d1", "d2"]) "d1" =
      some (stateEntryOf tupleExplicit) ∧
    countKey (buildCurrentState [tupleExplicit, tuplePool] ["d1", "d2"]) "d1" = 1) ∧
    (dictGet (buildCurrentState [tupleExplicit, tuplePoolHigh] ["d1", "d2"]) "d1" =
      some (stateEntryOf tuplePoolHigh) ∧
    dictGet (buildCurrentState [tuplePoolHigh, tupleExplicit] ["d1", "d2"]) "d1" =
      some (stateEntryOf tuplePoolHigh) ∧
    countKey (buildCurrentState [tupleExplicit, tuplePoolHigh] ["d1", "d2"]) "d1" = 1) :=
  ⟨desired_state_exclusivity.2.1 tupleExplicit tuplePool ["d1", "d2"] "d1" ["d1"]
    rfl (by decide) (by decide) rfl (by decide) (by decide) (by decide),
   desired_state_exclusivity.2.2 tupleExplicit tuplePoolHigh ["d1", "d2"] "d1" ["d1"]
    rfl (by decide) (by decide) rfl (by decide) (by decide) (by decide)⟩

/-- Claim C4: cycle idempotence.  Running the evaluation cycle a second
time on the state the first run recorded, with identical resolved matches
and pool (and any device behaviours), detects zero changes: nothing is
grouped, notified or applied — no device receives an apply operation — and
the recorded state is unchanged. -/
theorem cycle_idempotent
    (prev : List (String × (String × String))) (resolved : List ResolvedTuple)
    (pool : List String) (behavior behavior2 : DeviceBehavior) :
    (evaluateCycle (evaluateCycle prev resolved pool behavior).newState
        resolved pool behavior2).changes = [] ∧
    (evaluateCycle (evaluateCycle prev resolved pool behavior).newState
        resolved pool behavior2).notifications = [] ∧
    (evaluateCycle (evaluateCycle prev resolved pool behavior).newState
        resolved pool behavior2).appliedCount = 0 ∧
    (evaluateCycle (evaluateCycle prev resolved pool behavior).newState
        resolved pool behavior2).applyResults = [] ∧
    (evaluateCycle (evaluateCycle prev resolved pool behavior).newState
        resolved pool behavior2).newState =
      (evaluateCycle prev resolved pool behavior).newState := by
  by_cases h : resolved.isEmpty
  · simp [evaluateCycle, h]
  · have hch : computeChanges (buildCurrentState resolved pool)
        ((buildCurrentState resolved pool).map
          (fun p => (p.1, (p.2.slot_id, p.2.binding_id)))) = [] :=
      computeChanges_self _ (nodup_keys_buildCurrentState resolved pool)
    refine ⟨?_, ?_, ?_, ?_, ?_⟩ <;>
      simp [evaluateCycle, h, applyMultipleSlots, hch, groupChanges]

/-- Counterexample for C8: a cycle that resolves no matches skips
`_apply_multiple_slots` entirely (`if resolved_bindings:` in `evaluate`),
so the stored previous-state map is *not* replaced by the cycle's (empty)
desired state — it keeps its stale entry. -/
theorem previous_state_kept_on_empty_cycle :
    (evaluateCycle [("d1", ("s1", "b1"))] [] ["d1"] (fun _ _ => none)).newState =
      [("d1", ("s1", "b1"))] ∧
    buildCurrentState [] ["d1"] = [] ∧
    ([("d1", ("s1", "b1"))] : List (String × (String × String))) ≠ [] := by
  refine ⟨rfl, rfl, by simp⟩

/-- Claim C8 (amended): in every evaluation cycle that resolves at least
one match, the stored previous-state map is replaced by the projection of
the full desired state — including entries whose apply failed — and the
replacement is entirely independent of the devices' apply behaviour, so no
application failure can prevent it.  (A cycle resolving no matches leaves
the map untouched; see the counterexample.) -/
theorem previous_state_replaced_when_matches
    (prev : List (String × (String × String))) (resolved : List ResolvedTuple)
    (pool : List String) (behavior behavior2 : DeviceBehavior)
    (h : resolved ≠ []) :
    (evaluateCycle prev resolved pool behavior).newState =
      (buildCurrentState resolved pool).map
        (fun p => (p.1, (p.2.slot_id, p.2.binding_id))) ∧
    (evaluateCycle prev resolved pool behavior).newState =
      (evaluateCycle prev resolved pool behavior2).newState := by
  have hne : resolved.isEmpty = false := by
    cases resolved with
    | nil => exact absurd rfl h
    | cons t ts => rfl
  constructor <;> simp [evaluateCycle, hne, applyMultipleSlots]

/-- Witness for C8: with one resolved match, the recorded state after the
cycle is the desired-state projection, identical under a behaviour where
every apply fails and one where every apply succeeds. -/
theorem previous_state_replaced_when_matches_witness :
    (evaluateCycle [] [tupleExplicit] ["d1", "d2"] (fun _ _ => some "down")).newState =
      (buildCurrentState [tupleExplicit] ["d1", "d2"]).map
        (fun p => (p.1, (p.2.slot_id, p.2.binding_id))) ∧
    (evaluateCycle [] [tupleExplicit] ["d1", "d2"] (fun _ _ => some "down")).newState =
      (evaluateCycle [] [tupleExplicit] ["d1", "d2"] (fun _ _ => none)).newState :=
  previous_state_replaced_when_matches [] [tupleExplicit] ["d1", "d2"]
    (fun _ _ => some "down") (fun _ _ => none) (by decide)

/-! ### Grouping lemmas for the notification claim -/

theorem values_nonempty_dictInsertAppend {α β : Type} [DecidableEq α]
    (m : List (α × List β)) (k : α) (v : β)
    (h : ∀ g ∈ m, g.2 ≠ []) :
    ∀ g ∈ dictInsertAppend m k v, g.2 ≠ [] := by
  induction m with
  | nil =>
    intro g hg
    simp only [dictInsertAppend, List.mem_singleton] at hg
    subst hg
    simp
  | cons p rest ih =>
    intro g hg
    obtain ⟨k', vs⟩ := p
    by_cases hk : k' = k
    · simp only [dictInsertAppend, if_pos hk, List.mem_cons] at hg
      rcases hg with hg | hg
      · subst hg; simp
      · exact h g (List.mem_cons_of_mem _ hg)
    · simp only [dictInsertAppend, if_neg hk, List.mem_cons] at hg
      rcases hg with hg | hg
      · subst hg
        exact h (k', vs) (List.mem_cons_self _ _)
      · exact ih (fun g' hg' => h g' (List.mem_cons_of_mem _ hg')) g hg

/-- Every group `entities_by_binding` produces holds at least one changed
entity. -/
theorem values_nonempty_groupChanges (changes : List ChangeEntry) :
    ∀ g ∈ groupChanges changes, g.2 ≠ [] := by
  rw [groupChanges]
  have hgen : ∀ (acc : List ((String × String) × List GroupItem)),
      (∀ g ∈ acc, g.2 ≠ []) →
      ∀ g ∈ changes.foldl
        (fun acc c => dictInsertAppend acc (c.slot_id, c.metadata.binding_id)
          { entity_id := c.entity_id, slot := c.slot, metadata := c.metadata,
            event_summary := c.event_summary }) acc, g.2 ≠ [] := by
    induction changes with
    | nil => intro acc h g hg; exact h g hg
    | cons c cs ih =>
      intro acc h g hg
      exact ih _ (values_nonempty_dictInsertAppend acc _ _ h) g hg
  exact hgen [] (by simp)

theorem length_filterMap_of_isSome {α β : Type} (l : List α) (f : α → Option β)
    (h : ∀ a ∈ l, (f a).isSome) : (l.filterMap f).length = l.length := by
  induction l with
  | nil => rfl
  | cons a as ih =>
    obtain ⟨b, hb⟩ := Option.isSome_iff_exists.mp (h a (List.mem_cons_self a as))
    simp only [List.filterMap_cons, hb, List.length_cons]
    rw [ih (fun x hx => h x (List.mem_cons_of_mem a hx))]

/-- Claim C9 (amended): per changed `(slot_id, binding_id)` group the
engine emits exactly one "rule matched" notification — one per group, not
one per device — carrying the binding id, the triggering event's label,
the slot id and label, the pattern kind and value, and the full list of
targeted device ids of that group; however the notification's
`calendar_id` field is always the empty string and its `priority` field is
always `0`, because the call site hardcodes both placeholders instead of
propagating the source calendar and the winning binding's priority. -/
theorem notification_one_per_group
    (prev : List (String × (String × String))) (resolved : List ResolvedTuple)
    (pool : List String) (behavior : DeviceBehavior) (n : Notification)
    (hn : n ∈ (evaluateCycle prev resolved pool behavior).notifications) :
    (evaluateCycle prev resolved pool behavior).notifications.length =
      (evaluateCycle prev resolved pool behavior).groups.length ∧
    n.calendar_id = "" ∧ n.priority = 0 ∧
    ∃ g ∈ (evaluateCycle prev resolved pool behavior).groups,
      ∃ first rest, g.2 = first :: rest ∧
        n.binding_id = first.metadata.binding_id ∧
        n.event_summary = first.event_summary ∧
        n.slot_id = g.1.1 ∧
        n.slot_label = first.slot.label ∧
        n.match_type = first.metadata.match_type ∧
        n.match_value = first.metadata.match_value ∧
        n.target_entities = g.2.map (fun i => i.entity_id) := by
  have hout : (evaluateCycle prev resolved pool behavior).notifications =
      (evaluateCycle prev resolved pool behavior).groups.filterMap
        (fun g => notificationForGroup g.1 g.2) := by
    by_cases h : resolved.isEmpty <;> simp [evaluateCycle, h, applyMultipleSlots]
  have hgroups : ∀ g ∈ (evaluateCycle prev resolved pool behavior).groups,
      g.2 ≠ [] := by
    by_cases h : resolved.isEmpty
    · simp [evaluateCycle, h]
    · intro g hg
      exact values_nonempty_groupChanges
        (computeChanges (buildCurrentState resolved pool) prev) g
        (by simpa [evaluateCycle, h, applyMultipleSlots] using hg)
  refine ⟨?_, ?_⟩
  · rw [hout]
    refine length_filterMap_of_isSome _ _ ?_
    intro g hg
    cases hgd : g.2 with
    | nil => exact absurd hgd (hgroups g hg)
    | cons first rest => simp [notificationForGroup, hgd]
  · rw [hout] at hn
    obtain ⟨g, hg, hng⟩ := List.mem_filterMap.mp hn
    cases hgd : g.2 with
    | nil =>
      rw [hgd] at hng
      simp [notificationForGroup] at hng
    | cons first rest =>
      rw [hgd] at hng
      simp only [notificationForGroup, Option.some.injEq] at hng
      subst hng
      exact ⟨rfl, rfl, g, hg, first, rest, hgd, rfl, rfl, rfl, rfl, rfl, rfl, by rw [hgd]⟩

/-- The single notification the sample cycle emits. -/
def sampleNotification : Notification :=
  { binding_id := "b1", event_summary := "Morning", calendar_id := "",
    slot_id := "slot_a", slot_label := "Comfort", match_type := "summary",
    match_value := "Morning", priority := 0, target_entities := ["d1"] }

/-- Counterexample for C9: the notification emitted for the sample group
carries `priority = 0` and `calendar_id = ""` although the winning match's
priority is 5 and the source event's calendar is `"calendar.work"` — the
claimed source-calendar and winning-priority content is not emitted. -/
theorem notification_content_is_placeholder :
    (evaluateCycle [] [tupleExplicit] ["d1", "d2"] (fun _ _ => none)).notifications.map
        (fun n => (n.priority, n.calendar_id)) = [((0 : Int), "")] ∧
    tupleExplicit.priority = 5 ∧
    ((0 : Int) ≠ 5 ∧ ("" : String) ≠ "calendar.work") := by
  refine ⟨by decide, rfl, by decide, by decide⟩

/-- Witness for C9: the sample cycle changes one group of one device; it
emits exactly one notification (one per group), and that notification's
fields are those of the group's first change, with the placeholder
calendar id and priority. -/
theorem notification_one_per_group_witness :
    (evaluateCycle [] [tupleExplicit] ["d1", "d2"] (fun _ _ => none)).notifications.length =
      (evaluateCycle [] [tupleExplicit] ["d1", "d2"] (fun _ _ => none)).groups.length ∧
    sampleNotification.calendar_id = "" ∧ sampleNotification.priority = 0 ∧
    ∃ g ∈ (evaluateCycle [] [tupleExplicit] ["d1", "d2"] (fun _ _ => none)).groups,
      ∃ first rest, g.2 = first :: rest ∧
        sampleNotification.binding_id = first.metadata.binding_id ∧
        sampleNotification.event_summary = first.event_summary ∧
        sampleNotification.slot_id = g.1.1 ∧
        sampleNotification.slot_label = first.slot.label ∧
        sampleNotification.match_type = first.metadata.match_type ∧
        sampleNotification.match_value = first.metadata.match_value ∧
        sampleNotification.target_entities = g.2.map (fun i => i.entity_id) :=
  notification_one_per_group [] [tupleExplicit] ["d1", "d2"] (fun _ _ => none)
    sampleNotification (by decide)
